import Mathlib

/-
Verification of the Variant Turn Controller of two-move-chess
(src/backend/application.py) against its specification.

The controller is embedded shallowly.  The chess rules engine
(the python-chess library, imported as `chess` by the source) is an
external collaborator; it is modelled as an abstract interface
`RulesEngine` carrying exactly the operations the source calls on a
`chess.Board` value: `is_game_over()`, `result()`, `turn`,
`fen()`, `legal_moves`, `is_capture(move)`, `push(move)`, the
starting position `chess.Board()`, and the move parser
`chess.Move.from_uci` (whose `ValueError` is modelled as `none`).

Python integers are modelled as `Int` (the `moves_left` counter is
decremented with `-= 1` and compared with `== 0`; Python integers are
unbounded and signed, so `Int` is the faithful carrier).
-/

namespace TwoMoveChess

/-- The interface of the chess rules engine exactly as consumed by
`src/backend/application.py`.  `P` is the opaque board/position type
(`chess.Board`), `M` the structural move type (`chess.Move`).
`turn` is the python-chess convention: `true` is `chess.WHITE`. -/
structure RulesEngine (P M : Type) where
  is_game_over : P → Bool
  result : P → String
  turn : P → Bool
  fen : P → String
  legal_moves : P → List M
  is_capture : P → M → Bool
  push : P → M → P
  from_uci : String → Option M
  start : P

/-- The single mutable entity of the data model: `game_state` of
`application.py`, holding the board and moves_left entries. -/
structure MatchState (P : Type) where
  board : P
  moves_left : Int
deriving DecidableEq, Repr

/-- The snapshot shape returned by `get_game_state` (the dict
serialized by `jsonify`): fen, isGameOver, statusMessage. -/
structure GameStateResponse where
  fen : String
  isGameOver : Bool
  statusMessage : String
deriving DecidableEq, Repr

/-- The four error kinds of `make_move`, each carrying what the
corresponding f-string carries. -/
inductive MoveError where
  | gameOver
  | missingMove
  | invalidFormat (token : String)
  | illegalMove (token : String)
deriving DecidableEq, Repr

/-- The response of `make_move`: either a jsonified error with status
400, or the `get_game_state()` snapshot. -/
inductive MoveResponse where
  | err (e : MoveError)
  | ok (g : GameStateResponse)
deriving DecidableEq, Repr

variable {P M : Type}

/-- `initialize_game` of application.py: sets the game to its initial
state (`board = chess.Board()`, `moves_left = 1`). -/
def initialize_game (e : RulesEngine P M) : MatchState P :=
  { board := e.start, moves_left := 1 }

/-- `get_status_message` of application.py: generates a user-friendly
status message from the current state. -/
def get_status_message (e : RulesEngine P M) (s : MatchState P) : String :=
  if e.is_game_over s.board then
    let result := e.result s.board
    if result = "1-0" then "Game Over: White wins!"
    else if result = "0-1" then "Game Over: Black wins!"
    else if result = "1/2-1/2" then "Game Over: Draw!"
    else "Game Over! " ++ result
  else
    let turn := if e.turn s.board then "White" else "Black"
    let moves := s.moves_left
    turn ++ " to move (" ++ toString moves ++ " " ++
      (if moves = 1 then "move" else "moves") ++ " left)"

/-- `get_game_state` of application.py: returns the current state of
the game as a snapshot (ignoring the lock, which is treated separately
below for the concurrency claim). -/
def get_game_state (e : RulesEngine P M) (s : MatchState P) : GameStateResponse :=
  { fen := e.fen s.board
    isGameOver := e.is_game_over s.board
    statusMessage := get_status_message e s }

/-- `new_game` of application.py: calls `initialize_game()` and then
returns `get_game_state()`.  Result is the response paired with the
new value of the shared `game_state`. -/
def new_game (e : RulesEngine P M) (_s : MatchState P) :
    GameStateResponse × MatchState P :=
  let s := initialize_game e
  (get_game_state e s, s)

/-- `make_move` of application.py, state-transition semantics: the
move field of the request is `input` (`none` when absent; the Python
`if not move_uci` also treats the empty string as missing).  The
`try`/`except ValueError` around `chess.Move.from_uci` is modelled by
`from_uci` returning `none`.  Result is the response paired with the
new value of the shared `game_state`. -/
def make_move [DecidableEq M] (e : RulesEngine P M) (input : Option String)
    (s : MatchState P) : MoveResponse × MatchState P :=
  if e.is_game_over s.board then (.err .gameOver, s)
  else
    match input with
    | none => (.err .missingMove, s)
    | some move_uci =>
      if move_uci = "" then (.err .missingMove, s)
      else
        match e.from_uci move_uci with
        | none => (.err (.invalidFormat move_uci), s)
        | some move =>
          if move ∈ e.legal_moves s.board then
            let is_capture := e.is_capture s.board move
            let board := e.push s.board move
            let moves_left := s.moves_left - 1
            let moves_left :=
              if moves_left = 0 then (if is_capture then 2 else 1)
              else moves_left
            let s : MatchState P := { board := board, moves_left := moves_left }
            (.ok (get_game_state e s), s)
          else (.err (.illegalMove move_uci), s)

/-! Lock discipline.

The source guards `game_state` with `game_lock = threading.Lock()`, a
non-reentrant lock.  `with game_lock:` by a thread that already holds
the lock blocks forever.  The models below thread the lock state
(`held : Bool`, whether the current thread already holds `game_lock`)
through each operation; `LockResult.blocked` marks an acquisition that
can never succeed because the acquiring thread itself holds the
lock. -/

/-- Outcome of an operation run under the non-reentrant `game_lock`:
either it returns a value, or it blocks forever trying to acquire a
lock its own thread already holds. -/
inductive LockResult (α : Type) where
  | blocked
  | done (a : α)
deriving DecidableEq, Repr

/-- `get_game_state` of application.py with its `with game_lock:`
modelled: acquisition by a thread that already holds the lock
blocks. -/
def get_game_state_locked (e : RulesEngine P M) (held : Bool)
    (s : MatchState P) : LockResult GameStateResponse :=
  if held then .blocked else .done (get_game_state e s)

/-- `make_move` of application.py with its lock discipline modelled:
the whole body runs inside `with game_lock:`, and the success path
returns `get_game_state()`, which tries to acquire `game_lock` again
while this same thread still holds it.  The second component is the
value of the shared `game_state` afterwards (mutations made before the
nested acquisition stay). -/
def make_move_locked [DecidableEq M] (e : RulesEngine P M)
    (input : Option String) (held : Bool) (s : MatchState P) :
    LockResult MoveResponse × MatchState P :=
  if held then (.blocked, s)
  else
    -- game_lock is now held by this thread for the whole body below.
    if e.is_game_over s.board then (.done (.err .gameOver), s)
    else
      match input with
      | none => (.done (.err .missingMove), s)
      | some move_uci =>
        if move_uci = "" then (.done (.err .missingMove), s)
        else
          match e.from_uci move_uci with
          | none => (.done (.err (.invalidFormat move_uci)), s)
          | some move =>
            if move ∈ e.legal_moves s.board then
              let is_capture := e.is_capture s.board move
              let board := e.push s.board move
              let moves_left := s.moves_left - 1
              let moves_left :=
                if moves_left = 0 then (if is_capture then 2 else 1)
                else moves_left
              let s : MatchState P := { board := board, moves_left := moves_left }
              match get_game_state_locked e true s with
              | .blocked => (.blocked, s)
              | .done g => (.done (.ok g), s)
            else (.done (.err (.illegalMove move_uci)), s)

/-! Operation sequences.

The controller exposes three operations on the one process-wide
`game_state`.  `runOps` plays a sequence of them from the state
`initialize_game()` builds at process start (module load runs
`initialize_game()` before any request is served). -/

/-- One external request: GET /api/game_state, POST /api/new_game, or
POST /api/move with the move field of the request. -/
inductive Op where
  | getState
  | newGame
  | applyMove (input : Option String)

/-- Effect of one operation on the shared `game_state`.  `getState`
only reads; `newGame` and `applyMove` may write. -/
def runOp [DecidableEq M] (e : RulesEngine P M) (s : MatchState P) :
    Op → MatchState P
  | .getState => s
  | .newGame => (new_game e s).2
  | .applyMove input => (make_move e input s).2

/-- The shared `game_state` after serving a sequence of requests from
process start. -/
def runOps [DecidableEq M] (e : RulesEngine P M) (ops : List Op) :
    MatchState P :=
  ops.foldl (runOp e) (initialize_game e)

/-! A small concrete rules engine.

Used to evaluate the controller on closed inputs (witnesses and
counterexamples).  Its `push` toggles the side to move on every ply:
this is the behaviour of the python-chess library the source imports
(`chess.Board.push` switches `Board.turn` after every half-move, and
this is what the source relies on for turn handling). -/

/-- A toy position: whose turn it is (`true` = White, the python-chess
convention), whether the game is over, and how many plies have been
played (used only to give distinct positions distinct FENs). -/
structure MiniPos where
  turn : Bool
  over : Bool
  plies : Nat
deriving DecidableEq, Repr

/-- Concrete rules engine over `MiniPos`.  Moves are strings; "cap" is
the one capture move; tokens longer than 3 characters fail to parse
(playing the role of `chess.Move.from_uci` raising `ValueError`). -/
def miniEngine : RulesEngine MiniPos String where
  is_game_over p := p.over
  result _ := "*"
  turn p := p.turn
  fen p := "pos" ++ toString p.plies
  legal_moves p := if p.over then [] else ["a", "b", "cap"]
  is_capture _ m := m = "cap"
  push p _ :=
    { turn := !p.turn
      over := p.over
      plies := p.plies + 1 }
  from_uci t := if t.length ≤ 3 then some t else none
  start := { turn := true, over := false, plies := 0 }

/-- A concrete game-over position for evaluating the error paths. -/
def overPos : MiniPos := { turn := true, over := true, plies := 7 }

/-! Helper lemmas. -/

/-- Case analysis of the effect of `make_move` on the shared `game_state`:
every error path leaves it untouched, and the success path pushes the
move and updates the counter by decrement-then-re-arm. -/
theorem make_move_state_cases [DecidableEq M] (e : RulesEngine P M)
    (input : Option String) (s : MatchState P) :
    (make_move e input s).2 = s ∨
    ∃ t m, input = some t ∧ e.from_uci t = some m ∧
      m ∈ e.legal_moves s.board ∧
      (make_move e input s).2 =
        { board := e.push s.board m
          moves_left :=
            if s.moves_left - 1 = 0 then
              (if e.is_capture s.board m then 2 else 1)
            else s.moves_left - 1 } := by
  by_cases hgo : e.is_game_over s.board = true
  · left; simp [make_move, hgo]
  · cases input with
    | none => left; simp [make_move, hgo]
    | some t =>
      by_cases ht : t = ""
      · left; simp [make_move, hgo, ht]
      · cases hp : e.from_uci t with
        | none => left; simp [make_move, hgo, ht, hp]
        | some m =>
          by_cases hl : m ∈ e.legal_moves s.board
          · right
            exact ⟨t, m, rfl, hp, hl, by simp [make_move, hgo, ht, hp, hl]⟩
          · left; simp [make_move, hgo, ht, hp, hl]

/-- One step of any operation keeps the counter in the set 1 or 2. -/
theorem runOp_moves_left [DecidableEq M] (e : RulesEngine P M)
    (s : MatchState P) (o : Op)
    (h : s.moves_left = 1 ∨ s.moves_left = 2) :
    (runOp e s o).moves_left = 1 ∨ (runOp e s o).moves_left = 2 := by
  cases o with
  | getState => exact h
  | newGame => left; rfl
  | applyMove input =>
    show (make_move e input s).2.moves_left = 1 ∨
      (make_move e input s).2.moves_left = 2
    rcases make_move_state_cases e input s with heq | ⟨t, m, _, _, _, heq⟩
    · rw [heq]; exact h
    · rw [heq]
      dsimp only
      by_cases h0 : s.moves_left - 1 = 0
      · by_cases hc : e.is_capture s.board m
        · right; simp [h0, hc]
        · left; simp [h0, hc]
      · rw [if_neg h0]; omega

/-- The counter stays in the set 1 or 2 along any request
sequence. -/
theorem foldl_runOp_moves_left [DecidableEq M] (e : RulesEngine P M) :
    ∀ (ops : List Op) (s : MatchState P),
      s.moves_left = 1 ∨ s.moves_left = 2 →
      (ops.foldl (runOp e) s).moves_left = 1 ∨
        (ops.foldl (runOp e) s).moves_left = 2
  | [], _, h => h
  | o :: ops, s, h =>
    foldl_runOp_moves_left e ops (runOp e s o) (runOp_moves_left e s o h)

/-- The four ordered ApplyMove preconditions, written from the words of
the spec (section 4.1): a game-over position fails with GameOverError; an
absent or empty token fails with MissingMoveError; an unparsable token
fails with InvalidMoveFormatError; a parsed move outside the
legal-move set fails with IllegalMoveError carrying the offending
token; `none` when all four pass. -/
def spec_precondition_error [DecidableEq M] (e : RulesEngine P M)
    (input : Option String) (s : MatchState P) : Option MoveError :=
  if e.is_game_over s.board then some .gameOver
  else
    match input with
    | none => some .missingMove
    | some t =>
      if t = "" then some .missingMove
      else
        match e.from_uci t with
        | none => some (.invalidFormat t)
        | some m =>
          if m ∈ e.legal_moves s.board then none
          else some (.illegalMove t)

/-! Claim theorems. -/

/-- C1: when all four preconditions pass, `make_move` evaluates
capture status against the position before the move is applied, then
pushes the move and decrements `moves_left` by 1; a counter that
reaches 0 is re-armed to 2 when the move was a capture and to 1
otherwise, and a counter still positive is left at the decremented
value. -/
theorem make_move_success_updates [DecidableEq M] (e : RulesEngine P M)
    (s : MatchState P) (t : String) (m : M)
    (hgo : e.is_game_over s.board = false) (ht : t ≠ "")
    (hp : e.from_uci t = some m) (hl : m ∈ e.legal_moves s.board) :
    (make_move e (some t) s).2.board = e.push s.board m ∧
    (make_move e (some t) s).2.moves_left =
      (if s.moves_left - 1 = 0 then
        (if e.is_capture s.board m then 2 else 1)
       else s.moves_left - 1) := by
  constructor <;> simp [make_move, hgo, ht, hp, hl]

/-- Witness for C1: the opening capture move on the concrete engine,
played from the initial state, exhausts the allowance (1 - 1 = 0) and
re-arms it to 2 because the move captured. -/
theorem make_move_success_updates_witness :
    (make_move miniEngine (some "cap") (initialize_game miniEngine)).2.board
        = miniEngine.push (initialize_game miniEngine).board "cap" ∧
    (make_move miniEngine (some "cap") (initialize_game miniEngine)).2.moves_left
        = (if (initialize_game miniEngine).moves_left - 1 = 0 then
            (if miniEngine.is_capture (initialize_game miniEngine).board "cap"
             then 2 else 1)
           else (initialize_game miniEngine).moves_left - 1) :=
  make_move_success_updates miniEngine (initialize_game miniEngine) "cap" "cap"
    (by decide) (by decide) (by decide) (by decide)

/-- C2 (refuting evidence): from a state with `moves_left = 2` and
Black to move, a legal non-capture move leaves `moves_left = 1` as
claimed, but the side to move reported by the position flips to White,
because the `push` of the engine — like `chess.Board.push` of the
python-chess library the source imports — switches the turn on every
ply and the controller does nothing to restore it mid-sub-turn. -/
theorem make_move_subturn_flips_turn :
    (make_move miniEngine (some "a")
        ⟨⟨false, false, 3⟩, 2⟩).2.moves_left = 1 ∧
    miniEngine.turn (⟨false, false, 3⟩ : MiniPos) = false ∧
    miniEngine.turn
      (make_move miniEngine (some "a") ⟨⟨false, false, 3⟩, 2⟩).2.board
        = true := by
  decide

/-- C3: along every request sequence from process start, the counter
is at least 1 whenever the position is not game-over (the code in fact
maintains it unconditionally). -/
theorem runOps_moves_left_pos [DecidableEq M] (e : RulesEngine P M)
    (ops : List Op)
    (_hgo : e.is_game_over (runOps e ops).board = false) :
    1 ≤ (runOps e ops).moves_left := by
  show 1 ≤ (ops.foldl (runOp e) (initialize_game e)).moves_left
  rcases foldl_runOp_moves_left e ops (initialize_game e) (Or.inl rfl)
    with h | h <;> omega

/-- Witness for C3: after the opening capture on the concrete engine
the game is not over and the counter is at least 1. -/
theorem runOps_moves_left_pos_witness :
    1 ≤ (runOps miniEngine [Op.applyMove (some "cap")]).moves_left :=
  runOps_moves_left_pos miniEngine [Op.applyMove (some "cap")] (by decide)

/-- C4: `make_move` returns an error exactly when one of the four
ordered preconditions (expressed by `spec_precondition_error`, written
from the words of the spec) fails, and returns the error that precondition
prescribes — so the checks run in the fixed order, each failure yields
its own distinct error, and an error is returned if and only if one of
the four conditions holds. -/
theorem make_move_error_complete [DecidableEq M] (e : RulesEngine P M)
    (input : Option String) (s : MatchState P) (k : MoveError) :
    (make_move e input s).1 = .err k ↔
      spec_precondition_error e input s = some k := by
  by_cases hgo : e.is_game_over s.board = true
  · simp [make_move, spec_precondition_error, hgo]
  · cases input with
    | none => simp [make_move, spec_precondition_error, hgo]
    | some t =>
      by_cases ht : t = ""
      · simp [make_move, spec_precondition_error, hgo, ht]
      · cases hp : e.from_uci t with
        | none => simp [make_move, spec_precondition_error, hgo, ht, hp]
        | some m =>
          by_cases hl : m ∈ e.legal_moves s.board
          · simp [make_move, spec_precondition_error, hgo, ht, hp, hl]
          · simp [make_move, spec_precondition_error, hgo, ht, hp, hl]

/-- Witness for C4: on the concrete engine, a move request on a
game-over position yields GameOverError. -/
theorem make_move_error_complete_witness :
    (make_move miniEngine (some "a") ⟨overPos, 1⟩).1
      = .err .gameOver :=
  (make_move_error_complete miniEngine (some "a") ⟨overPos, 1⟩
    .gameOver).mpr (by decide)

/-- C5: a `make_move` call that returns any error leaves the shared
`game_state` (both the position and the counter) exactly as it was. -/
theorem make_move_error_frame [DecidableEq M] (e : RulesEngine P M)
    (input : Option String) (s : MatchState P) (k : MoveError)
    (h : (make_move e input s).1 = .err k) :
    (make_move e input s).2 = s := by
  by_cases hgo : e.is_game_over s.board = true
  · simp [make_move, hgo]
  · cases input with
    | none => simp [make_move, hgo]
    | some t =>
      by_cases ht : t = ""
      · simp [make_move, hgo, ht]
      · cases hp : e.from_uci t with
        | none => simp [make_move, hgo, ht, hp]
        | some m =>
          by_cases hl : m ∈ e.legal_moves s.board
          · exfalso; simp [make_move, hgo, ht, hp, hl] at h
          · simp [make_move, hgo, ht, hp, hl]

/-- Witness for C5: the game-over error on the concrete engine leaves
the state untouched. -/
theorem make_move_error_frame_witness :
    (make_move miniEngine (some "a") ⟨overPos, 1⟩).2 = ⟨overPos, 1⟩ :=
  make_move_error_frame miniEngine (some "a") ⟨overPos, 1⟩ .gameOver (by decide)

/-- C6: `new_game` after any request sequence yields the starting
position with `moves_left = 1`, its state does not depend on the prior
history, and two consecutive `new_game` calls produce identical
snapshots. -/
theorem new_game_idempotent [DecidableEq M] (e : RulesEngine P M)
    (ops : List Op) :
    (new_game e (runOps e ops)).2.board = e.start ∧
    (new_game e (runOps e ops)).2.moves_left = 1 ∧
    (new_game e (runOps e ops)).2 = initialize_game e ∧
    (new_game e (new_game e (runOps e ops)).2).1
      = (new_game e (runOps e ops)).1 :=
  ⟨rfl, rfl, rfl, rfl⟩

/-- Witness for C6: evaluated on the concrete engine after an opening
capture. -/
theorem new_game_idempotent_witness :
    (new_game miniEngine
        (runOps miniEngine [Op.applyMove (some "cap")])).2.board
      = miniEngine.start ∧
    (new_game miniEngine
        (runOps miniEngine [Op.applyMove (some "cap")])).2.moves_left = 1 ∧
    (new_game miniEngine
        (runOps miniEngine [Op.applyMove (some "cap")])).2
      = initialize_game miniEngine ∧
    (new_game miniEngine
        (new_game miniEngine
          (runOps miniEngine [Op.applyMove (some "cap")])).2).1
      = (new_game miniEngine
          (runOps miniEngine [Op.applyMove (some "cap")])).1 :=
  new_game_idempotent miniEngine [Op.applyMove (some "cap")]

/-- C7: the status message is a pure function of MatchState, and its
value is the game-over outcome string (white win, black win, draw, or
the fallback) when the game is over, and otherwise the side to move
followed by the counter with the singular word exactly when
`moves_left` is 1 and the plural otherwise. -/
theorem get_status_message_cases (e : RulesEngine P M) (s : MatchState P) :
    (∀ s' : MatchState P, s.board = s'.board → s.moves_left = s'.moves_left →
      get_status_message e s = get_status_message e s') ∧
    (e.is_game_over s.board = true →
      ((e.result s.board = "1-0" →
          get_status_message e s = "Game Over: White wins!") ∧
       (e.result s.board = "0-1" →
          get_status_message e s = "Game Over: Black wins!") ∧
       (e.result s.board = "1/2-1/2" →
          get_status_message e s = "Game Over: Draw!") ∧
       (e.result s.board ≠ "1-0" → e.result s.board ≠ "0-1" →
        e.result s.board ≠ "1/2-1/2" →
          get_status_message e s = "Game Over! " ++ e.result s.board))) ∧
    (e.is_game_over s.board = false →
      get_status_message e s =
        (if e.turn s.board then "White" else "Black") ++ " to move (" ++
        toString s.moves_left ++ " " ++
        (if s.moves_left = 1 then "move" else "moves") ++ " left)") := by
  refine ⟨?_, ?_, ?_⟩
  · intro s' hb hm
    unfold get_status_message
    rw [hb, hm]
  · intro hgo
    refine ⟨?_, ?_, ?_, ?_⟩
    · intro hr; simp [get_status_message, hgo, hr]
    · intro hr; simp [get_status_message, hgo, hr]
    · intro hr; simp [get_status_message, hgo, hr]
    · intro h1 h2 h3; simp [get_status_message, hgo, h1, h2, h3]
  · intro hgo
    simp [get_status_message, hgo]

/-- Witness for C7: on the concrete engine, whose result code is the
unspecified "*", a finished game produces the fallback outcome string,
and a running game with one move left uses the singular wording. -/
theorem get_status_message_cases_witness :
    get_status_message miniEngine ⟨overPos, 1⟩ = "Game Over! *" ∧
    get_status_message miniEngine ⟨miniEngine.start, 1⟩
      = "White to move (1 move left)" :=
  ⟨((get_status_message_cases miniEngine ⟨overPos, 1⟩).2.1 (by decide)).2.2.2
      (by decide) (by decide) (by decide),
   by
    rw [(get_status_message_cases miniEngine
      ⟨miniEngine.start, 1⟩).2.2 (by decide)]
    decide⟩

/-- C8: `get_game_state` has no effect on the shared `game_state`, and
its snapshot is the projection (fen, isGameOver, statusMessage) of the
current MatchState. -/
theorem get_game_state_pure [DecidableEq M] (e : RulesEngine P M)
    (s : MatchState P) :
    runOp e s .getState = s ∧
    get_game_state e s =
      { fen := e.fen s.board
        isGameOver := e.is_game_over s.board
        statusMessage := get_status_message e s } :=
  ⟨rfl, rfl⟩

/-- Witness for C8: evaluated on the initial state of the concrete
engine. -/
theorem get_game_state_pure_witness :
    runOp miniEngine (initialize_game miniEngine) .getState
        = initialize_game miniEngine ∧
    get_game_state miniEngine (initialize_game miniEngine) =
      { fen := miniEngine.fen (initialize_game miniEngine).board
        isGameOver := miniEngine.is_game_over (initialize_game miniEngine).board
        statusMessage :=
          get_status_message miniEngine (initialize_game miniEngine) } :=
  get_game_state_pure miniEngine (initialize_game miniEngine)

/-- C9: along every request sequence from process start, the counter
is exactly 1 or 2: the re-arm step only assigns 1 or 2, and the only
other write is the decrement from those values. -/
theorem runOps_moves_left_one_or_two [DecidableEq M] (e : RulesEngine P M)
    (ops : List Op) :
    (runOps e ops).moves_left = 1 ∨ (runOps e ops).moves_left = 2 :=
  foldl_runOp_moves_left e ops (initialize_game e) (Or.inl rfl)

/-- Witness for C9: after an opening capture on the concrete engine
the counter is 2, within the allowed set. -/
theorem runOps_moves_left_one_or_two_witness :
    (runOps miniEngine [Op.applyMove (some "cap")]).moves_left = 1 ∨
    (runOps miniEngine [Op.applyMove (some "cap")]).moves_left = 2 :=
  runOps_moves_left_one_or_two miniEngine [Op.applyMove (some "cap")]

/-- C10 (refuting evidence): a legal move request entering
`make_move` with the lock free mutates the state and then blocks
forever, because the success path calls `get_game_state()` — whose
body re-acquires the non-reentrant `game_lock` the calling thread
already holds — so the operation never completes and never releases
the lock. -/
theorem make_move_locked_deadlocks :
    make_move_locked miniEngine (some "a") false (initialize_game miniEngine)
      = (.blocked, ⟨⟨false, false, 1⟩, 1⟩) := by
  decide

end TwoMoveChess
